import Mathlib

/-!
Verification of the S12 daily envelope / leaderboard pipeline.

Shallow embedding of the numeric core (s_core.py, s1_krx_envelope.py) and of
the persistence layer (db_utils.py, main.py).  Floating-point NaN is modelled
by Option: a missing value is none, and arithmetic on present values is exact
rational arithmetic.  SQL NULL is likewise modelled by Option.
-/

namespace S12

/-! ## Envelope enricher (s_core.enrich_with_envelope / s1_krx_envelope.add_ma_envelope) -/

/-- Row produced by the envelope enricher for one (ticker, date): the rolling
moving average and the two envelope bands, each absent (NaN) when there is
insufficient history. -/
structure EnvRow where
  ma : Option ℚ
  env_upper : Option ℚ
  env_lower : Option ℚ
deriving Repr, DecidableEq

/-- Embeds pandas rolling(window, min_periods=window).mean() on one
date-ordered close series: at 0-based index i the value is absent when fewer
than window observations are available, and otherwise is the mean of the
trailing window of closes ending at i. -/
def rollingMean (window : ℕ) (closes : List ℚ) : List (Option ℚ) :=
  (List.range closes.length).map (fun i =>
    if i + 1 < window then none
    else some (((closes.take (i + 1)).drop (i + 1 - window)).sum / (window : ℚ)))

/-- Embeds the per-ticker body of enrich_with_envelope (s_core.py) and
add_ma_envelope (s1_krx_envelope.py): ma20 via the rolling mean, then
env_upper = ma20 * (1 + band_pct) and env_lower = ma20 * (1 - band_pct). -/
def enrich_with_envelope (window : ℕ) (band_pct : ℚ) (closes : List ℚ) : List EnvRow :=
  (rollingMean window closes).map (fun m =>
    { ma := m
      env_upper := m.map (fun x => x * (1 + band_pct))
      env_lower := m.map (fun x => x * (1 - band_pct)) })

/-! ## Tiered level calculator (s_core.s1_compute_levels) -/

/-- The part of a snapshot row that s1_compute_levels reads. -/
structure SnapshotRow where
  close : ℚ
  env_lower : Option ℚ
deriving Repr, DecidableEq

/-- The columns that s1_compute_levels adds. -/
structure S1Levels where
  s1_A : Option ℚ
  s1_B : Option ℚ
  s1_C : Option ℚ
  gap_to_A_pct : Option ℚ
  gap_to_B_pct : Option ℚ
  gap_to_C_pct : Option ℚ
deriving Repr, DecidableEq

/-- Embeds s1_compute_levels (s_core.py): A = env_lower, B = A * 0.9,
C = B * 0.9, gap_to_X_pct = (X - close) / close * 100; a NaN env_lower
propagates to every derived column. -/
def s1_compute_levels (r : SnapshotRow) : S1Levels :=
  let A := r.env_lower
  let B := A.map (fun x => x * (9 / 10 : ℚ))
  let C := B.map (fun x => x * (9 / 10 : ℚ))
  { s1_A := A
    s1_B := B
    s1_C := C
    gap_to_A_pct := A.map (fun x => (x - r.close) / r.close * 100)
    gap_to_B_pct := B.map (fun x => (x - r.close) / r.close * 100)
    gap_to_C_pct := C.map (fun x => (x - r.close) / r.close * 100) }

/-! ## Market-cap filter (s_core.filter_by_market_cap) -/

/-- The part of an input row that the market-cap filter reads. -/
structure McapRow where
  ticker : String
  market_cap : ℚ
deriving Repr, DecidableEq

/-- Config default min_mcap_won = 1.3e12 (s_core.Config). -/
def min_mcap_won : ℚ := 1300000000000

/-- Config default highlight_mcap_won = 5.0e12 (s_core.Config). -/
def highlight_mcap_won : ℚ := 5000000000000

/-- Embeds filter_by_market_cap (s_core.py): keep rows with
market_cap >= min_mcap_won, then add the is_ge_5trn flag
(market_cap >= highlight_mcap_won) to each surviving row. -/
def filter_by_market_cap (rows : List McapRow) : List (McapRow × Bool) :=
  (rows.filter (fun r => decide (min_mcap_won ≤ r.market_cap))).map
    (fun r => (r, decide (highlight_mcap_won ≤ r.market_cap)))

/-! ## Position labelling (s1_krx_envelope.label_stage) -/

/-- Embeds label_stage (s1_krx_envelope.py): empty string when any input is
NaN, otherwise a 4-way descending comparison of the price against the three
buy levels. -/
def label_stage (price b1 b2 b3 : Option ℚ) : String :=
  match price, b1, b2, b3 with
  | some p, some x1, some x2, some x3 =>
    if x1 ≤ p then "1차 매수 대기"
    else if x2 ≤ p then "2차 매수 대기"
    else if x3 ≤ p then "3차 매수 대기"
    else "3차 매수 완료"
  | _, _, _, _ => ""

/-! ## Gap to next threshold (s1_krx_envelope.gap_to_next) -/

/-- Models the Python percent formatting of a nonnegative rational to one
decimal place, as used in the f-string of gap_to_next. -/
def fmt1 (x : ℚ) : String :=
  let n : ℤ := round (x * 10)
  toString (n / 10) ++ "." ++ toString (n % 10)

/-- Embeds gap_to_next (s1_krx_envelope.py): empty string when any numeric
input is NaN or the stage is empty; otherwise the target is b1 for stage-1,
b2 for stage-2, and b3 for every other stage, and the output is
abs((target - price) / target * 100) formatted to one decimal with a percent
sign. -/
def gap_to_next (price : Option ℚ) (stage : String) (b1 b2 b3 : Option ℚ) : String :=
  match price, b1, b2, b3 with
  | some p, some x1, some x2, some x3 =>
    if stage = "" then ""
    else
      let target := if stage = "1차 매수 대기" then x1
        else if stage = "2차 매수 대기" then x2
        else x3
      fmt1 (abs ((target - p) / target * 100)) ++ "%"
  | _, _, _, _ => ""

/-! ## State merge engine (db_utils.py)

A table is a finite map from its primary key to its non-key fields; SQL NULL
is Option.none.  Each UPSERT_SQL entry becomes a merge function describing the
ON CONFLICT DO UPDATE row, and upsert_many folds the per-row upsert over the
batch, returning the affected-row count (executemany rowcount, one per row). -/

/-- SQLite scalar MIN over two possibly-NULL TEXT values: NULL when either
argument is NULL, otherwise the smaller under BINARY (lexicographic)
collation. -/
def sqlMin (a b : Option String) : Option String :=
  match a, b with
  | some x, some y => some (min x y)
  | _, _ => none

/-- Non-key columns of leaders_history (key: date, ticker). -/
structure LeadersHistoryFields where
  name : String
  market : String
  close : ℚ
  volume : ℤ
  turnover_eok : ℚ
  mktcap_eok : ℚ
  first_seen : Option String
  last_seen : Option String
deriving Repr, DecidableEq

/-- Non-key columns of leaders_events (key: ticker, date). -/
structure LeadersEventsFields where
  turnover_eok : ℚ
  close : ℚ
  high : ℚ
  low : ℚ
  volume : ℤ
deriving Repr, DecidableEq

/-- Non-key columns of watch_universe (key: ticker). -/
structure WatchFields where
  name : String
  market : String
  first_seen : Option String
  last_seen : Option String
  times_above_5k : ℤ
  last_turnover_eok : ℚ
deriving Repr, DecidableEq

/-- Non-key columns of prices_daily (key: date, ticker). -/
structure PricesDailyFields where
  open_ : ℚ
  high : ℚ
  low : ℚ
  close : ℚ
  volume : ℤ
  turnover_eok : ℚ
deriving Repr, DecidableEq

/-- ON CONFLICT action of UPSERT_SQL for leaders_history: every non-key
column takes the excluded (incoming) value except first_seen, which becomes
MIN(stored, incoming). -/
def mergeLeadersHistory (stored incoming : LeadersHistoryFields) : LeadersHistoryFields :=
  { name := incoming.name
    market := incoming.market
    close := incoming.close
    volume := incoming.volume
    turnover_eok := incoming.turnover_eok
    mktcap_eok := incoming.mktcap_eok
    first_seen := sqlMin stored.first_seen incoming.first_seen
    last_seen := incoming.last_seen }

/-- ON CONFLICT action of UPSERT_SQL for leaders_events: every non-key column
takes the excluded value. -/
def mergeLeadersEvents (stored incoming : LeadersEventsFields) : LeadersEventsFields :=
  { turnover_eok := incoming.turnover_eok
    close := incoming.close
    high := incoming.high
    low := incoming.low
    volume := incoming.volume }

/-- ON CONFLICT action of UPSERT_SQL for watch_universe: name, market,
last_seen, times_above_5k and last_turnover take the excluded values, while
first_seen becomes COALESCE(stored, incoming). -/
def mergeWatchUniverse (stored incoming : WatchFields) : WatchFields :=
  { name := incoming.name
    market := incoming.market
    first_seen :=
      match stored.first_seen with
      | some x => some x
      | none => incoming.first_seen
    last_seen := incoming.last_seen
    times_above_5k := incoming.times_above_5k
    last_turnover_eok := incoming.last_turnover_eok }

/-- ON CONFLICT action of UPSERT_SQL for prices_daily: every non-key column
takes the excluded value. -/
def mergePricesDaily (stored incoming : PricesDailyFields) : PricesDailyFields :=
  { open_ := incoming.open_
    high := incoming.high
    low := incoming.low
    close := incoming.close
    volume := incoming.volume
    turnover_eok := incoming.turnover_eok }

/-- One INSERT ... ON CONFLICT DO UPDATE statement: insert when the key is
absent, otherwise apply the merge of the stored and the incoming row. -/
def upsertRow {κ ρ : Type} [DecidableEq κ] (merge : ρ → ρ → ρ)
    (tb : κ → Option ρ) (k : κ) (r : ρ) : κ → Option ρ :=
  fun q =>
    if q = k then
      some (match tb k with
        | none => r
        | some s => merge s r)
    else tb q

/-- Embeds db_utils.upsert_many: executemany of the upsert over the batch in
order, returning the affected-row count (len(rows), and 0 for an empty
batch). -/
def upsert_many {κ ρ : Type} [DecidableEq κ] (merge : ρ → ρ → ρ)
    (tb : κ → Option ρ) (rows : List (κ × ρ)) : (κ → Option ρ) × ℕ :=
  (rows.foldl (fun acc kr => upsertRow merge acc kr.1 kr.2) tb, rows.length)

/-- upsert_many specialised to prices_daily, keyed by (date, ticker). -/
def upsert_many_prices (tb : String × String → Option PricesDailyFields)
    (rows : List ((String × String) × PricesDailyFields)) :
    (String × String → Option PricesDailyFields) × ℕ :=
  upsert_many mergePricesDaily tb rows

/-- upsert_many specialised to watch_universe, keyed by ticker. -/
def upsert_many_watch (tb : String → Option WatchFields)
    (rows : List (String × WatchFields)) : (String → Option WatchFields) × ℕ :=
  upsert_many mergeWatchUniverse tb rows

/-! ## Leader counter incrementer (main.increment_times_above_5k) -/

/-- Python truthiness of a nullable TEXT value, as tested by
if prev and prev[2] in main.py: false for NULL and for the empty string. -/
def pyTruthy (o : Option String) : Bool :=
  match o with
  | some s => decide (s ≠ "")
  | none => false

/-- Embeds main.increment_times_above_5k: read the stored
(times_above_5k, first_seen) per ticker, add 1 to the count exactly for
tickers in the leader set, carry a truthy stored first_seen forward, and for
non-leaders overwrite last_seen with the stored first_seen (None when the
ticker is absent from storage); then upsert the batch into watch_universe. -/
def increment_times_above_5k (db : String → Option WatchFields)
    (wuniv_rows : List (String × WatchFields)) (leaders : List String)
    (date_str : String) : (String → Option WatchFields) × ℕ :=
  let _ := date_str
  let out := wuniv_rows.map (fun tr =>
    let t := tr.1
    let r := tr.2
    let prev := db t
    let prev_cnt : ℤ :=
      match prev with
      | some p => p.times_above_5k
      | none => 0
    let add : ℤ := if t ∈ leaders then 1 else 0
    let r1 := { r with times_above_5k := prev_cnt + add }
    let r2 :=
      match prev with
      | some p => if pyTruthy p.first_seen then { r1 with first_seen := p.first_seen } else r1
      | none => r1
    let r3 :=
      if t ∈ leaders then r2
      else
        { r2 with last_seen :=
            match prev with
            | some p => p.first_seen
            | none => none }
    (t, r3))
  upsert_many_watch db out

/-- An incoming watch-universe batch row for a run dated d.  The rows handed
to increment_times_above_5k are built by build_rows_for_tables (in the core
module, whose source is not part of src/); per the data model a freshly built
row carries the run date as both first_seen and last_seen.  Only the date
fields matter to the exhibited divergence. -/
def mkIncomingWatchRow (d : String) : WatchFields :=
  { name := "AAA CO"
    market := "KOSPI"
    first_seen := some d
    last_seen := some d
    times_above_5k := 0
    last_turnover_eok := 6000 }

/-! ## Snapshot extractor (s_core.latest_snapshot) -/

/-- An input row as seen by latest_snapshot: the grouping ticker, the date
(totally ordered) and a payload column to tell rows apart. -/
structure SeriesRow where
  ticker : String
  date : ℕ
  close : ℚ
deriving Repr, DecidableEq

/-- Embeds the per-group idxmax of latest_snapshot: the first row of the
group attaining the maximal date (pandas idxmax returns the first occurrence
of the maximum); none only for an empty group. -/
def firstMaxByDate : List SeriesRow → Option SeriesRow
  | [] => none
  | r :: rs =>
    match firstMaxByDate rs with
    | none => some r
    | some b => if b.date > r.date then some b else some r

/-- The distinct tickers of the input in order of first appearance.  (pandas
groupby orders the groups by sorted key; the claim is order-independent, so
the embedding keeps the groups in first-appearance order.) -/
def tickersInOrder (rows : List SeriesRow) : List String :=
  rows.foldl (fun acc r => if r.ticker ∈ acc then acc else acc ++ [r.ticker]) []

/-- Embeds s_core.latest_snapshot: group by ticker, then keep the row with
the per-group idxmax of the date column. -/
def latest_snapshot (rows : List SeriesRow) : List SeriesRow :=
  (tickersInOrder rows).filterMap
    (fun t => firstMaxByDate (rows.filter (fun r => r.ticker == t)))

/-! ## Replay date guard (main.run_replay) -/

/-- An input row as seen by the replay guard of run_replay. -/
structure ReplayRow where
  date : String
  ticker : String
  close : ℚ
deriving Repr, DecidableEq

/-- Embeds pandas Series.unique on the date column: distinct values in order
of first appearance (nunique is the length of this list). -/
def uniqueDates (l : List String) : List String :=
  l.foldl (fun acc d => if d ∈ acc then acc else acc ++ [d]) []

/-- Insertion into a lexicographically sorted list of strings. -/
def insertSorted (d : String) : List String → List String
  | [] => [d]
  | x :: xs => if d ≤ x then d :: x :: xs else x :: insertSorted d xs

/-- Lexicographic insertion sort, modelling sorted() in the error message of
run_replay. -/
def sortStrings (l : List String) : List String :=
  l.foldr insertSorted []

/-- Embeds the replay-date precondition of main.run_replay: the loaded batch
must contain exactly one distinct date and it must equal the expected date;
otherwise the run raises before any table write.  The pipeline after the
guard (split_leaders_and_universe, build_rows_for_tables and the four
upserts) is abstracted as the rest argument, applied only on the success
path. -/
def run_replay {α : Type} (rest : List ReplayRow → String → α → α × (ℕ × ℕ × ℕ × ℕ))
    (db : α) (date_str : String) (df : List ReplayRow) :
    Except String (α × (ℕ × ℕ × ℕ × ℕ)) :=
  if (uniqueDates (df.map (fun r => r.date))).length ≠ 1 ∨
      (df.map (fun r => r.date)).head? ≠ some date_str then
    Except.error ("CSV date mismatch. expected " ++ date_str ++ ", got " ++
      String.intercalate ", " (sortStrings (uniqueDates (df.map (fun r => r.date)))))
  else
    Except.ok (rest df date_str db)

end S12

namespace S12

/-! ## Theorems -/

/-- Claim C3: for every date-ordered close series enriched by the envelope
enricher, the moving average is undefined (NaN) at every index with fewer
than window observations available, and at an index with at least window
observations it equals the arithmetic mean of the trailing window closes;
env_upper equals ma times (1 + band_pct) and env_lower equals
ma times (1 - band_pct), so both bands are NaN exactly where ma is NaN. -/
theorem C3_envelope_ma (window : ℕ) (band_pct : ℚ) (closes : List ℚ) (i : ℕ)
    (row : EnvRow)
    (hrow : (enrich_with_envelope window band_pct closes)[i]? = some row) :
    (i + 1 < window → row.ma = none) ∧
    (window ≤ i + 1 →
      row.ma = some (((closes.drop (i + 1 - window)).take window).sum / (window : ℚ))) ∧
    row.env_upper = row.ma.map (fun x => x * (1 + band_pct)) ∧
    row.env_lower = row.ma.map (fun x => x * (1 - band_pct)) ∧
    (row.env_upper = none ↔ row.ma = none) ∧
    (row.env_lower = none ↔ row.ma = none) := by
  by_cases hi : i < closes.length
  · rw [enrich_with_envelope, rollingMean] at hrow
    rw [List.getElem?_map, List.getElem?_map, List.getElem?_range hi] at hrow
    simp only [Option.map_some'] at hrow
    injection hrow with hrow
    subst hrow
    refine ⟨fun hw => by simp [hw], fun hw => ?_, rfl, rfl, ?_, ?_⟩
    · have hlt : ¬ i + 1 < window := by omega
      simp only [hlt, if_false]
      have harith : i + 1 - (i + 1 - window) = window := by omega
      rw [List.drop_take, harith]
    · simp [Option.map_eq_none']
    · simp [Option.map_eq_none']
  · exfalso
    have hlen : (enrich_with_envelope window band_pct closes).length = closes.length := by
      simp [enrich_with_envelope, rollingMean]
    have hle : (enrich_with_envelope window band_pct closes).length ≤ i := by omega
    rw [List.getElem?_eq_none_iff.2 hle] at hrow
    cases hrow

/-- Witness for C3 at window 2, band 1/10, closes [1, 2, 3], index 1. -/
theorem C3_envelope_ma_witness :
    ((enrich_with_envelope 2 (1 / 10) [1, 2, 3])[1]? =
      some { ma := some (3 / 2), env_upper := some (33 / 20), env_lower := some (27 / 20) }) ∧
    (2 ≤ 1 + 1) ∧
    ({ ma := some (3 / 2), env_upper := some (33 / 20), env_lower := some (27 / 20) } : EnvRow).ma =
      some (((([1, 2, 3] : List ℚ).drop (1 + 1 - 2)).take 2).sum / ((2 : ℕ) : ℚ)) := by
  have h : (enrich_with_envelope 2 (1 / 10) [1, 2, 3])[1]? =
      some { ma := some (3 / 2), env_upper := some (33 / 20), env_lower := some (27 / 20) } := by
    norm_num [enrich_with_envelope, rollingMean, List.range_succ]
  exact ⟨h, by norm_num,
    (C3_envelope_ma 2 (1 / 10) [1, 2, 3] 1 _ h).2.1 (by norm_num)⟩

/-- Claim C4: the tiered level calculator sets A = env_lower, B = A * 0.9,
C = B * 0.9 = 0.81 * A, and gap_to_X = (X - close) / close * 100 for each of
A, B, C; whenever env_lower is defined and positive, C < B < A strictly, and
whenever env_lower is NaN, all of A, B, C and the three gaps are NaN. -/
theorem C4_s1_levels (r : SnapshotRow) :
    (∀ a, r.env_lower = some a →
      (s1_compute_levels r).s1_A = some a ∧
      (s1_compute_levels r).s1_B = some (a * (9 / 10)) ∧
      (s1_compute_levels r).s1_C = some (a * (81 / 100)) ∧
      (s1_compute_levels r).gap_to_A_pct = some ((a - r.close) / r.close * 100) ∧
      (s1_compute_levels r).gap_to_B_pct = some ((a * (9 / 10) - r.close) / r.close * 100) ∧
      (s1_compute_levels r).gap_to_C_pct = some ((a * (81 / 100) - r.close) / r.close * 100) ∧
      (0 < a → a * (81 / 100) < a * (9 / 10) ∧ a * (9 / 10) < a)) ∧
    (r.env_lower = none →
      (s1_compute_levels r).s1_A = none ∧
      (s1_compute_levels r).s1_B = none ∧
      (s1_compute_levels r).s1_C = none ∧
      (s1_compute_levels r).gap_to_A_pct = none ∧
      (s1_compute_levels r).gap_to_B_pct = none ∧
      (s1_compute_levels r).gap_to_C_pct = none) := by
  refine ⟨fun a ha => ?_, fun h => by simp [s1_compute_levels, h]⟩
  have hC : a * (9 / 10) * (9 / 10) = a * (81 / 100) := by ring
  refine ⟨by simp [s1_compute_levels, ha], by simp [s1_compute_levels, ha], ?_, ?_, ?_, ?_, ?_⟩
  · simp [s1_compute_levels, ha, hC]
  · simp [s1_compute_levels, ha]
  · simp [s1_compute_levels, ha]
  · simp [s1_compute_levels, ha, hC]
  · intro ha0
    constructor <;> nlinarith

/-- Witness for C4 at close 100 with env_lower 50, and with env_lower NaN. -/
theorem C4_s1_levels_witness :
    ((⟨100, some 50⟩ : SnapshotRow).env_lower = some 50) ∧
    ((0 : ℚ) < 50) ∧
    (s1_compute_levels ⟨100, some 50⟩).s1_C = some (50 * (81 / 100)) ∧
    ((50 : ℚ) * (81 / 100) < 50 * (9 / 10)) ∧
    ((⟨100, none⟩ : SnapshotRow).env_lower = none) ∧
    (s1_compute_levels ⟨100, none⟩).gap_to_C_pct = none := by
  have h1 := (C4_s1_levels ⟨100, some 50⟩).1 50 rfl
  have h2 := (C4_s1_levels ⟨100, none⟩).2 rfl
  exact ⟨rfl, by norm_num, h1.2.2.1, (h1.2.2.2.2.2.2 (by norm_num)).1, rfl,
    h2.2.2.2.2.2⟩

/-- Claim C7: the market-cap filter keeps exactly the rows with market_cap at
or above min_mcap_won and drops all others; among survivors the high-cap flag
is true exactly when market_cap is at or above highlight_mcap_won; a row at
1.2e12 is excluded, one at 1.3e12 is included with flag false, one at 5.0e12
is included with flag true. -/
theorem C7_filter_by_market_cap (rows : List McapRow) (r : McapRow) (b : Bool) :
    ((r, b) ∈ filter_by_market_cap rows ↔
      r ∈ rows ∧ min_mcap_won ≤ r.market_cap ∧
        (b = true ↔ highlight_mcap_won ≤ r.market_cap)) ∧
    filter_by_market_cap [⟨"L", 1200000000000⟩] = [] ∧
    filter_by_market_cap [⟨"M", 1300000000000⟩] = [(⟨"M", 1300000000000⟩, false)] ∧
    filter_by_market_cap [⟨"H", 5000000000000⟩] = [(⟨"H", 5000000000000⟩, true)] := by
  refine ⟨?_, ?_, ?_, ?_⟩
  · constructor
    · intro h
      simp only [filter_by_market_cap, List.mem_map, List.mem_filter,
        decide_eq_true_eq, Prod.ext_iff] at h
      obtain ⟨x, ⟨hx, hmin⟩, hxr, hxb⟩ := h
      subst hxr
      refine ⟨hx, hmin, ?_⟩
      cases b <;> simp_all
    · rintro ⟨hr, hmin, hb⟩
      simp only [filter_by_market_cap, List.mem_map, List.mem_filter,
        decide_eq_true_eq, Prod.ext_iff]
      refine ⟨r, ⟨hr, hmin⟩, rfl, ?_⟩
      cases b <;> simp_all
  · norm_num [filter_by_market_cap, List.filter_cons, min_mcap_won]
  · norm_num [filter_by_market_cap, List.filter_cons, min_mcap_won, highlight_mcap_won]
  · norm_num [filter_by_market_cap, List.filter_cons, min_mcap_won, highlight_mcap_won]

/-- Claim C8: the position labeller is a deterministic 4-state classification
by descending comparison on defined inputs, and returns the undefined (empty)
label when any of the price or the three thresholds is NaN. -/
theorem C8_label_stage (p a b c : ℚ) :
    (label_stage (some p) (some a) (some b) (some c) = "1차 매수 대기" ↔ a ≤ p) ∧
    (label_stage (some p) (some a) (some b) (some c) = "2차 매수 대기" ↔ p < a ∧ b ≤ p) ∧
    (label_stage (some p) (some a) (some b) (some c) = "3차 매수 대기" ↔
      p < a ∧ p < b ∧ c ≤ p) ∧
    (label_stage (some p) (some a) (some b) (some c) = "3차 매수 완료" ↔
      p < a ∧ p < b ∧ p < c) ∧
    (∀ x1 x2 x3 : Option ℚ, label_stage none x1 x2 x3 = "") ∧
    (∀ q x2 x3 : Option ℚ, label_stage q none x2 x3 = "") ∧
    (∀ q x1 x3 : Option ℚ, label_stage q x1 none x3 = "") ∧
    (∀ q x1 x2 : Option ℚ, label_stage q x1 x2 none = "") := by
  have d21 : ("2차 매수 대기" : String) ≠ "1차 매수 대기" := by decide
  have d31 : ("3차 매수 대기" : String) ≠ "1차 매수 대기" := by decide
  have d41 : ("3차 매수 완료" : String) ≠ "1차 매수 대기" := by decide
  have d12 : ("1차 매수 대기" : String) ≠ "2차 매수 대기" := by decide
  have d32 : ("3차 매수 대기" : String) ≠ "2차 매수 대기" := by decide
  have d42 : ("3차 매수 완료" : String) ≠ "2차 매수 대기" := by decide
  have d13 : ("1차 매수 대기" : String) ≠ "3차 매수 대기" := by decide
  have d23 : ("2차 매수 대기" : String) ≠ "3차 매수 대기" := by decide
  have d43 : ("3차 매수 완료" : String) ≠ "3차 매수 대기" := by decide
  have d14 : ("1차 매수 대기" : String) ≠ "3차 매수 완료" := by decide
  have d24 : ("2차 매수 대기" : String) ≠ "3차 매수 완료" := by decide
  have d34 : ("3차 매수 대기" : String) ≠ "3차 매수 완료" := by decide
  refine ⟨?_, ?_, ?_, ?_, fun x1 x2 x3 => rfl,
    fun q x2 x3 => by rcases q with _ | qv <;> rfl,
    fun q x1 x3 => by rcases q with _ | qv <;> rcases x1 with _ | xv <;> rfl,
    fun q x1 x2 => by
      rcases q with _ | qv <;> rcases x1 with _ | xv <;> rcases x2 with _ | yv <;> rfl⟩
  · simp only [label_stage]
    split_ifs with h1 h2 h3 <;> simp_all
  · simp only [label_stage]
    split_ifs with h1 h2 h3 <;> simp_all
  · simp only [label_stage]
    split_ifs with h1 h2 h3 <;> simp_all
  · simp only [label_stage]
    split_ifs with h1 h2 h3 <;> simp_all

/-- Claim C10: the distance-to-next-threshold output of the fetch tool uses
the target threshold as the denominator: for defined inputs and a non-empty
stage it equals abs((target - price) / target * 100) formatted to one decimal
with a percent sign, where the target is b1 for the first stage, b2 for the
second, and b3 for both third-stage labels; it is the empty string when the
stage is empty or any input is NaN. -/
theorem C10_gap_to_next (p x1 x2 x3 : ℚ) :
    gap_to_next (some p) "1차 매수 대기" (some x1) (some x2) (some x3) =
      fmt1 (abs ((x1 - p) / x1 * 100)) ++ "%" ∧
    gap_to_next (some p) "2차 매수 대기" (some x1) (some x2) (some x3) =
      fmt1 (abs ((x2 - p) / x2 * 100)) ++ "%" ∧
    gap_to_next (some p) "3차 매수 대기" (some x1) (some x2) (some x3) =
      fmt1 (abs ((x3 - p) / x3 * 100)) ++ "%" ∧
    gap_to_next (some p) "3차 매수 완료" (some x1) (some x2) (some x3) =
      fmt1 (abs ((x3 - p) / x3 * 100)) ++ "%" ∧
    gap_to_next (some p) "" (some x1) (some x2) (some x3) = "" ∧
    (∀ (s : String) (y1 y2 y3 : Option ℚ), gap_to_next none s y1 y2 y3 = "") ∧
    (∀ (s : String) (q y2 y3 : Option ℚ), gap_to_next q s none y2 y3 = "") ∧
    (∀ (s : String) (q y1 y3 : Option ℚ), gap_to_next q s y1 none y3 = "") ∧
    (∀ (s : String) (q y1 y2 : Option ℚ), gap_to_next q s y1 y2 none = "") := by
  refine ⟨rfl, rfl, rfl, rfl, rfl, fun s y1 y2 y3 => rfl,
    fun s q y2 y3 => by rcases q with _ | qv <;> rfl,
    fun s q y1 y3 => by rcases q with _ | qv <;> rcases y1 with _ | xv <;> rfl,
    fun s q y1 y2 => by
      rcases q with _ | qv <;> rcases y1 with _ | xv <;> rcases y2 with _ | yv <;> rfl⟩

/-- On a prices_daily conflict the stored fields are discarded entirely, so
the merged row is the incoming row. -/
lemma mergePricesDaily_eq (s r : PricesDailyFields) : mergePricesDaily s r = r := rfl

/-- Pointwise description of one prices_daily upsert. -/
lemma upsertRow_prices_apply (tb : String × String → Option PricesDailyFields)
    (k q : String × String) (r : PricesDailyFields) :
    upsertRow mergePricesDaily tb k r q = if q = k then some r else tb q := by
  unfold upsertRow
  by_cases h : q = k
  · simp only [h, if_pos rfl]
    cases tb k <;> rfl
  · simp [h]

/-- A key that never occurs in the batch is untouched by the prices_daily
upsert. -/
lemma prices_upsert_untouched :
    ∀ (rows : List ((String × String) × PricesDailyFields))
      (tb : String × String → Option PricesDailyFields) (k : String × String),
      k ∉ rows.map Prod.fst → (upsert_many_prices tb rows).1 k = tb k := by
  intro rows
  induction rows with
  | nil => intro tb k _; rfl
  | cons kr rs ih =>
    intro tb k h
    simp only [List.map_cons, List.mem_cons, not_or] at h
    obtain ⟨h1, h2⟩ := h
    have hstep : (upsert_many_prices tb (kr :: rs)).1 =
        (upsert_many_prices (upsertRow mergePricesDaily tb kr.1 kr.2) rs).1 := rfl
    rw [hstep, ih _ _ h2, upsertRow_prices_apply]
    simp [h1]

/-- The prices_daily upsert only reads the prior table at keys outside the
batch. -/
lemma prices_upsert_congr :
    ∀ (rows : List ((String × String) × PricesDailyFields))
      (tb tb2 : String × String → Option PricesDailyFields),
      (∀ k, k ∉ rows.map Prod.fst → tb k = tb2 k) →
      ∀ k, (upsert_many_prices tb rows).1 k = (upsert_many_prices tb2 rows).1 k := by
  intro rows
  induction rows with
  | nil => intro tb tb2 h k; exact h k (by simp)
  | cons kr rs ih =>
    intro tb tb2 h k
    have hstep : ∀ q, q ∉ rs.map Prod.fst →
        upsertRow mergePricesDaily tb kr.1 kr.2 q =
          upsertRow mergePricesDaily tb2 kr.1 kr.2 q := by
      intro q hq
      rw [upsertRow_prices_apply, upsertRow_prices_apply]
      by_cases hqk : q = kr.1
      · simp [hqk]
      · simp only [hqk, if_neg hqk, if_false]
        exact h q (by simp [hq, hqk])
    exact ih _ _ hstep k

/-- Claim C5: the prices_daily upsert is idempotent: applying the same batch
twice yields the affected-row count of the first application and leaves every
key of the table with the same value as applying it once. -/
theorem C5_prices_daily_upsert_idempotent
    (tb : String × String → Option PricesDailyFields)
    (rows : List ((String × String) × PricesDailyFields)) :
    (upsert_many_prices (upsert_many_prices tb rows).1 rows).2 =
      (upsert_many_prices tb rows).2 ∧
    ∀ k, (upsert_many_prices (upsert_many_prices tb rows).1 rows).1 k =
      (upsert_many_prices tb rows).1 k := by
  refine ⟨rfl, fun k => ?_⟩
  exact prices_upsert_congr rows _ tb
    (fun q hq => prices_upsert_untouched rows tb q hq) k

/-- Claim C2: the per-table merge rules on key collision.  For
leaders_history every non-key field takes the incoming value except
first_seen, which becomes the lexicographic MIN of the stored and incoming
values; leaders_events and prices_daily overwrite every non-key field; for
watch_universe name, market, last_seen, times_above_5k and last_turnover are
overwritten while first_seen is the stored value when present and the
incoming value otherwise. -/
theorem C2_upsert_merge_rules
    (sh ih : LeadersHistoryFields) (se ie : LeadersEventsFields)
    (sp ip : PricesDailyFields) (sw iw : WatchFields) :
    ((mergeLeadersHistory sh ih).name = ih.name ∧
     (mergeLeadersHistory sh ih).market = ih.market ∧
     (mergeLeadersHistory sh ih).close = ih.close ∧
     (mergeLeadersHistory sh ih).volume = ih.volume ∧
     (mergeLeadersHistory sh ih).turnover_eok = ih.turnover_eok ∧
     (mergeLeadersHistory sh ih).mktcap_eok = ih.mktcap_eok ∧
     (mergeLeadersHistory sh ih).last_seen = ih.last_seen) ∧
    (∀ x y, sh.first_seen = some x → ih.first_seen = some y →
      (mergeLeadersHistory sh ih).first_seen = some (min x y)) ∧
    mergeLeadersEvents se ie = ie ∧
    mergePricesDaily sp ip = ip ∧
    ((mergeWatchUniverse sw iw).name = iw.name ∧
     (mergeWatchUniverse sw iw).market = iw.market ∧
     (mergeWatchUniverse sw iw).last_seen = iw.last_seen ∧
     (mergeWatchUniverse sw iw).times_above_5k = iw.times_above_5k ∧
     (mergeWatchUniverse sw iw).last_turnover_eok = iw.last_turnover_eok) ∧
    (∀ x, sw.first_seen = some x → (mergeWatchUniverse sw iw).first_seen = some x) ∧
    (sw.first_seen = none → (mergeWatchUniverse sw iw).first_seen = iw.first_seen) := by
  refine ⟨⟨rfl, rfl, rfl, rfl, rfl, rfl, rfl⟩, ?_, rfl, rfl,
    ⟨rfl, rfl, rfl, rfl, rfl⟩, ?_, ?_⟩
  · intro x y hx hy
    simp [mergeLeadersHistory, sqlMin, hx, hy]
  · intro x hx
    simp [mergeWatchUniverse, hx]
  · intro hx
    simp [mergeWatchUniverse, hx]

/-- Witness for C2 at concrete rows with a stored first_seen later than the
incoming one on leaders_history, a present stored first_seen on
watch_universe, and an absent stored first_seen on watch_universe. -/
theorem C2_upsert_merge_rules_witness :
    ((⟨"N", "K", 1, 1, 1, 1, some "2025-01-02", some "2025-01-02"⟩ :
        LeadersHistoryFields).first_seen = some "2025-01-02") ∧
    ((⟨"N", "K", 2, 2, 2, 2, some "2025-01-01", some "2025-01-03"⟩ :
        LeadersHistoryFields).first_seen = some "2025-01-01") ∧
    (mergeLeadersHistory
        ⟨"N", "K", 1, 1, 1, 1, some "2025-01-02", some "2025-01-02"⟩
        ⟨"N", "K", 2, 2, 2, 2, some "2025-01-01", some "2025-01-03"⟩).first_seen =
      some (min "2025-01-02" "2025-01-01") ∧
    ((⟨"n", "k", some "2025-01-02", none, 3, 7⟩ : WatchFields).first_seen =
      some "2025-01-02") ∧
    (mergeWatchUniverse ⟨"n", "k", some "2025-01-02", none, 3, 7⟩
        ⟨"n2", "k2", some "2025-01-05", some "2025-01-06", 4, 8⟩).first_seen =
      some "2025-01-02" ∧
    ((⟨"n", "k", none, none, 0, 0⟩ : WatchFields).first_seen = none) ∧
    (mergeWatchUniverse ⟨"n", "k", none, none, 0, 0⟩
        ⟨"n2", "k2", some "2025-01-05", some "2025-01-06", 4, 8⟩).first_seen =
      (⟨"n2", "k2", some "2025-01-05", some "2025-01-06", 4, 8⟩ : WatchFields).first_seen := by
  have h1 := C2_upsert_merge_rules
    ⟨"N", "K", 1, 1, 1, 1, some "2025-01-02", some "2025-01-02"⟩
    ⟨"N", "K", 2, 2, 2, 2, some "2025-01-01", some "2025-01-03"⟩
    ⟨1, 1, 1, 1, 1⟩ ⟨1, 1, 1, 1, 1⟩ ⟨1, 1, 1, 1, 1, 1⟩ ⟨1, 1, 1, 1, 1, 1⟩
    ⟨"n", "k", some "2025-01-02", none, 3, 7⟩
    ⟨"n2", "k2", some "2025-01-05", some "2025-01-06", 4, 8⟩
  have h2 := C2_upsert_merge_rules
    ⟨"N", "K", 1, 1, 1, 1, some "2025-01-02", some "2025-01-02"⟩
    ⟨"N", "K", 2, 2, 2, 2, some "2025-01-01", some "2025-01-03"⟩
    ⟨1, 1, 1, 1, 1⟩ ⟨1, 1, 1, 1, 1⟩ ⟨1, 1, 1, 1, 1, 1⟩ ⟨1, 1, 1, 1, 1, 1⟩
    ⟨"n", "k", none, none, 0, 0⟩
    ⟨"n2", "k2", some "2025-01-05", some "2025-01-06", 4, 8⟩
  exact ⟨rfl, rfl, h1.2.1 "2025-01-02" "2025-01-01" rfl rfl, rfl,
    h1.2.2.2.2.2.1 "2025-01-02" rfl, rfl, h2.2.2.2.2.2.2 rfl⟩

/-- firstMaxByDate is none exactly on the empty group. -/
lemma firstMaxByDate_eq_none_iff (l : List SeriesRow) :
    firstMaxByDate l = none ↔ l = [] := by
  cases l with
  | nil => simp [firstMaxByDate]
  | cons r rs =>
    simp only [firstMaxByDate]
    cases h : firstMaxByDate rs
    · dsimp only
      simp
    · dsimp only
      split_ifs <;> simp

/-- The row returned by firstMaxByDate belongs to the group, carries the
maximal date, and is the first row of the group attaining that date. -/
lemma firstMaxByDate_spec :
    ∀ (l : List SeriesRow) (r : SeriesRow), firstMaxByDate l = some r →
      r ∈ l ∧ (∀ s ∈ l, s.date ≤ r.date) ∧
      l.find? (fun s => decide (r.date ≤ s.date)) = some r := by
  intro l
  induction l with
  | nil => intro r h; cases h
  | cons a l ih =>
    intro r h
    simp only [firstMaxByDate] at h
    cases hb : firstMaxByDate l with
    | none =>
      rw [hb] at h
      dsimp only at h
      injection h with h
      subst h
      have hl : l = [] := (firstMaxByDate_eq_none_iff l).1 hb
      subst hl
      refine ⟨by simp, by simp, ?_⟩
      simp [List.find?]
    | some b =>
      rw [hb] at h
      dsimp only at h
      obtain ⟨hbmem, hble, hbfind⟩ := ih b hb
      by_cases hgt : b.date > a.date
      · rw [if_pos hgt] at h
        injection h with h
        subst h
        refine ⟨List.mem_cons_of_mem _ hbmem, ?_, ?_⟩
        · intro s hs
          rcases List.mem_cons.1 hs with hs | hs
          · subst hs; exact Nat.le_of_lt hgt
          · exact hble s hs
        · have hpa : decide (b.date ≤ a.date) = false := by
            simp only [decide_eq_false_iff_not]
            omega
          simp only [List.find?_cons, hpa]
          exact hbfind
      · rw [if_neg hgt] at h
        injection h with h
        subst h
        push_neg at hgt
        refine ⟨List.mem_cons_self _ _, ?_, ?_⟩
        · intro s hs
          rcases List.mem_cons.1 hs with hs | hs
          · subst hs; exact Nat.le_refl _
          · exact Nat.le_trans (hble s hs) hgt
        · have hpa : decide (a.date ≤ a.date) = true := by simp
          simp only [List.find?_cons, hpa]

/-- Every ticker listed by tickersInOrder occurs on some input row. -/
lemma mem_tickersInOrder_exists (rows : List SeriesRow) (t : String)
    (h : t ∈ tickersInOrder rows) : ∃ r ∈ rows, r.ticker = t := by
  have key : ∀ (l : List SeriesRow) (acc : List String),
      t ∈ l.foldl (fun acc r => if r.ticker ∈ acc then acc else acc ++ [r.ticker]) acc →
      t ∈ acc ∨ ∃ r ∈ l, r.ticker = t := by
    intro l
    induction l with
    | nil => intro acc hacc; exact Or.inl hacc
    | cons r rs ih =>
      intro acc hacc
      rcases ih _ hacc with hmem | ⟨s, hs, hst⟩
      · by_cases hr : r.ticker ∈ acc
        · simp only [if_pos hr] at hmem
          exact Or.inl hmem
        · simp only [if_neg hr] at hmem
          rcases List.mem_append.1 hmem with hmem | hmem
          · exact Or.inl hmem
          · refine Or.inr ⟨r, List.mem_cons_self _ _, ?_⟩
            exact (List.mem_singleton.1 hmem).symm
      · exact Or.inr ⟨s, List.mem_cons_of_mem _ hs, hst⟩
  rcases key rows [] h with hmem | hout
  · cases hmem
  · exact hout

/-- filterMap over a list of keys where every key produces a row with that
key restores the key list under the ticker projection. -/
lemma filterMap_tickers_eq (F : String → Option SeriesRow) :
    ∀ ts : List String, (∀ t ∈ ts, ∃ r, F t = some r ∧ r.ticker = t) →
      (ts.filterMap F).map (fun r => r.ticker) = ts := by
  intro ts
  induction ts with
  | nil => intro _; simp
  | cons t ts ih =>
    intro h
    obtain ⟨r, hr, hrt⟩ := h t (List.mem_cons_self _ _)
    simp only [List.filterMap_cons, hr, List.map_cons, hrt]
    rw [ih (fun u hu => h u (List.mem_cons_of_mem _ hu))]

/-- Claim C6: the snapshot extractor returns exactly one row per distinct
ticker of the input (its tickers are exactly the distinct input tickers, so
its row count is the distinct-ticker count), each returned row is an input
row carrying that ticker's maximum date, and on a tie it is deterministically
the first input row attaining that maximum. -/
theorem C6_latest_snapshot (rows : List SeriesRow) :
    (latest_snapshot rows).map (fun r => r.ticker) = tickersInOrder rows ∧
    (latest_snapshot rows).length = (tickersInOrder rows).length ∧
    ∀ r ∈ latest_snapshot rows,
      r ∈ rows ∧
      (∀ s ∈ rows, s.ticker = r.ticker → s.date ≤ r.date) ∧
      (rows.filter (fun s => s.ticker == r.ticker)).find?
        (fun s => decide (r.date ≤ s.date)) = some r := by
  have hmap : (latest_snapshot rows).map (fun r => r.ticker) = tickersInOrder rows := by
    apply filterMap_tickers_eq
    intro t ht
    obtain ⟨r0, hr0, hr0t⟩ := mem_tickersInOrder_exists rows t ht
    have hr0f : r0 ∈ rows.filter (fun s => s.ticker == t) := by
      simp [List.mem_filter, hr0, hr0t]
    cases hfm : firstMaxByDate (rows.filter (fun s => s.ticker == t)) with
    | none =>
      rw [firstMaxByDate_eq_none_iff] at hfm
      rw [hfm] at hr0f
      cases hr0f
    | some r =>
      obtain ⟨hrmem, -, -⟩ := firstMaxByDate_spec _ _ hfm
      refine ⟨r, rfl, ?_⟩
      have := (List.mem_filter.1 hrmem).2
      simpa using this
  refine ⟨hmap, ?_, ?_⟩
  · calc (latest_snapshot rows).length
        = ((latest_snapshot rows).map (fun r => r.ticker)).length := by
          rw [List.length_map]
      _ = (tickersInOrder rows).length := by rw [hmap]
  · intro r hr
    simp only [latest_snapshot, List.mem_filterMap] at hr
    obtain ⟨t, ht, hfm⟩ := hr
    obtain ⟨hrmem, hmax, hfind⟩ := firstMaxByDate_spec _ _ hfm
    have hrticker : r.ticker = t := by
      have := (List.mem_filter.1 hrmem).2
      simpa using this
    have hrrows : r ∈ rows := (List.mem_filter.1 hrmem).1
    refine ⟨hrrows, ?_, ?_⟩
    · intro s hs hst
      have hsf : s ∈ rows.filter (fun u => u.ticker == t) := by
        simp [List.mem_filter, hs, hst, hrticker]
      exact hmax s hsf
    · rw [hrticker]
      exact hfind

/-- Witness for C6 on a batch with a duplicated maximum date for ticker AAA:
the snapshot keeps the first of the two tied rows. -/
theorem C6_latest_snapshot_witness :
    ((⟨"AAA", 2, 11⟩ : SeriesRow) ∈
      latest_snapshot [⟨"AAA", 1, 10⟩, ⟨"AAA", 2, 11⟩, ⟨"BBB", 2, 20⟩, ⟨"AAA", 2, 12⟩]) ∧
    ((⟨"AAA", 2, 11⟩ : SeriesRow) ∈
      ([⟨"AAA", 1, 10⟩, ⟨"AAA", 2, 11⟩, ⟨"BBB", 2, 20⟩, ⟨"AAA", 2, 12⟩] : List SeriesRow) ∧
     (∀ s ∈ ([⟨"AAA", 1, 10⟩, ⟨"AAA", 2, 11⟩, ⟨"BBB", 2, 20⟩, ⟨"AAA", 2, 12⟩] : List SeriesRow),
        s.ticker = (⟨"AAA", 2, 11⟩ : SeriesRow).ticker →
        s.date ≤ (⟨"AAA", 2, 11⟩ : SeriesRow).date) ∧
     (([⟨"AAA", 1, 10⟩, ⟨"AAA", 2, 11⟩, ⟨"BBB", 2, 20⟩, ⟨"AAA", 2, 12⟩] : List SeriesRow).filter
        (fun s => s.ticker == (⟨"AAA", 2, 11⟩ : SeriesRow).ticker)).find?
          (fun s => decide ((⟨"AAA", 2, 11⟩ : SeriesRow).date ≤ s.date)) =
        some ⟨"AAA", 2, 11⟩) := by
  have hmem : (⟨"AAA", 2, 11⟩ : SeriesRow) ∈
      latest_snapshot [⟨"AAA", 1, 10⟩, ⟨"AAA", 2, 11⟩, ⟨"BBB", 2, 20⟩, ⟨"AAA", 2, 12⟩] := by
    decide
  exact ⟨hmem,
    (C6_latest_snapshot [⟨"AAA", 1, 10⟩, ⟨"AAA", 2, 11⟩, ⟨"BBB", 2, 20⟩, ⟨"AAA", 2, 12⟩]).2.2
      ⟨"AAA", 2, 11⟩ hmem⟩

/-- Every element of a list occurs among its distinct values. -/
lemma mem_uniqueDates (l : List String) (a : String) (h : a ∈ l) :
    a ∈ uniqueDates l := by
  have key : ∀ (l : List String) (acc : List String) (a : String), a ∈ acc ∨ a ∈ l →
      a ∈ l.foldl (fun acc d => if d ∈ acc then acc else acc ++ [d]) acc := by
    intro l
    induction l with
    | nil =>
      intro acc a h
      rcases h with h | h
      · exact h
      · cases h
    | cons d ds ih =>
      intro acc a h
      apply ih
      rcases h with h | h
      · left
        by_cases hd : d ∈ acc
        · simpa [if_pos hd] using h
        · simp only [if_neg hd]
          exact List.mem_append_left _ h
      · rcases List.mem_cons.1 h with h | h
        · subst h
          left
          by_cases hd : a ∈ acc
          · simpa [if_pos hd] using hd
          · simp only [if_neg hd]
            exact List.mem_append_right _ (List.mem_singleton.2 rfl)
        · exact Or.inr h
  exact key l [] a (Or.inr h)

/-- Claim C9: whenever the distinct dates of the replay batch are not exactly
the single expected date, run_replay raises a descriptive error and never
reaches the table upserts, so no persistent table is written for that run. -/
theorem C9_replay_date_guard {α : Type}
    (rest : List ReplayRow → String → α → α × (ℕ × ℕ × ℕ × ℕ)) (db : α)
    (date_str : String) (df : List ReplayRow)
    (h : uniqueDates (df.map (fun r => r.date)) ≠ [date_str]) :
    ∃ msg, run_replay rest db date_str df = Except.error msg := by
  unfold run_replay
  split_ifs with hc
  · exact ⟨_, rfl⟩
  · exfalso
    push_neg at hc
    obtain ⟨h1, h2⟩ := hc
    obtain ⟨x, hx⟩ := List.length_eq_one.1 h1
    have hmemdf : date_str ∈ df.map (fun r => r.date) :=
      List.mem_of_mem_head? (by simp [Option.mem_def, h2])
    have hmemu : date_str ∈ uniqueDates (df.map (fun r => r.date)) :=
      mem_uniqueDates _ _ hmemdf
    rw [hx] at hmemu
    have hxd : x = date_str := (List.mem_singleton.1 hmemu).symm
    subst hxd
    exact h hx

/-- Witness for C9: a one-row batch dated 2025-09-29 against expected date
2025-09-30 is rejected. -/
theorem C9_replay_date_guard_witness :
    (uniqueDates (([⟨"2025-09-29", "AAA", 1⟩] : List ReplayRow).map (fun r => r.date)) ≠
      ["2025-09-30"]) ∧
    ∃ msg, run_replay (fun _ _ db => (db, (0, 0, 0, 0))) () "2025-09-30"
      [⟨"2025-09-29", "AAA", 1⟩] = Except.error msg :=
  ⟨by decide,
    C9_replay_date_guard (fun _ _ db => (db, (0, 0, 0, 0))) () "2025-09-30"
      [⟨"2025-09-29", "AAA", 1⟩] (by decide)⟩

/-- Claim C1 (divergence exhibit): run the counter incrementer on three
sequential days for ticker AAA, a leader on 2025-09-01 and 2025-09-02 but not
on 2025-09-03.  After day 2 the stored row is
(times 2, first_seen 2025-09-01, last_seen 2025-09-02); the claim says the
non-leader day 3 must leave last_seen at 2025-09-02, but the code overwrites
last_seen with the stored first_seen (prev[2] of the SELECT reads first_seen,
not last_seen), so after day 3 the row is
(times 2, first_seen 2025-09-01, last_seen 2025-09-01). -/
theorem C1_increment_last_seen_bug :
    ((increment_times_above_5k
        (increment_times_above_5k (fun _ => none)
          [("AAA", mkIncomingWatchRow "2025-09-01")] ["AAA"] "2025-09-01").1
        [("AAA", mkIncomingWatchRow "2025-09-02")] ["AAA"] "2025-09-02").1 "AAA").map
      (fun r => (r.times_above_5k, r.first_seen, r.last_seen)) =
    some (2, some "2025-09-01", some "2025-09-02") ∧
    ((increment_times_above_5k
        (increment_times_above_5k
          (increment_times_above_5k (fun _ => none)
            [("AAA", mkIncomingWatchRow "2025-09-01")] ["AAA"] "2025-09-01").1
          [("AAA", mkIncomingWatchRow "2025-09-02")] ["AAA"] "2025-09-02").1
        [("AAA", mkIncomingWatchRow "2025-09-03")] [] "2025-09-03").1 "AAA").map
      (fun r => (r.times_above_5k, r.first_seen, r.last_seen)) =
    some (2, some "2025-09-01", some "2025-09-01") := by
  constructor <;> rfl

end S12
